import Mathlib

/-!
Shallow embedding of the exhibition-booth booking backend.

The model follows the JavaScript source:
* `src/models/Exhibition.js` (the Exhibition schema and the booking
  controller: `getBooking`, `createBooking`, `deleteBooking`,
  `updateBooking`),
* `src/controllers/exhibitions.js` (the exhibition controller,
  in particular `deleteExhibition`, and the Booking schema with its
  `pre('save')` cap middleware and the `checkTotalBooths` aggregate).

Documents are lists of records; Mongo object ids are modelled as `Nat`;
dates are day numbers (`Int`); HTTP status codes are plain `Nat`.
A request field that may be absent or carry an invalid value
(`boothType`) is modelled as `Option BoothType`, `none` covering both
"missing" and "not one of small/big" — the source always tests it with
`['small','big'].includes(...)`.  A numeric request field used through
JavaScript's `||` fallback (`amount` in updateBooking) is a `Nat`, `0`
playing the role of the falsy absent value.
-/

namespace BoothBooking

inductive BoothType where
  | small
  | big
deriving DecidableEq, Repr

inductive Role where
  | admin
  | member
deriving DecidableEq, Repr

structure Principal where
  id : Nat
  role : Role
deriving DecidableEq, Repr

/-- Exhibition record (`src/models/Exhibition.js`).  Only the fields the
booking logic reads are kept: the two quota counters and the start date. -/
structure Exhibition where
  exId : Nat
  startDate : Int
  smallBoothQuota : Nat
  bigBoothQuota : Nat
deriving DecidableEq, Repr

/-- Booking record (BookingSchema in `src/controllers/exhibitions.js`). -/
structure Booking where
  bookId : Nat
  user : Nat
  exhibition : Nat
  boothType : BoothType
  amount : Nat
deriving DecidableEq, Repr

/-- The persistent state: the Exhibition collection and the Booking
collection. -/
structure DB where
  exhibitions : List Exhibition
  bookings : List Booking
deriving DecidableEq, Repr

/-- The quota counter of an exhibition for a booth type
(`boothType === 'small' ? exhibition.smallBoothQuota : exhibition.bigBoothQuota`). -/
def Exhibition.quota (ex : Exhibition) : BoothType → Nat
  | .small => ex.smallBoothQuota
  | .big => ex.bigBoothQuota

/-- Decrement the quota counter of one booth type
(`exhibition.smallBoothQuota -= amount` / big symmetric). -/
def reserve (ex : Exhibition) : BoothType → Nat → Exhibition
  | .small, a => { ex with smallBoothQuota := ex.smallBoothQuota - a }
  | .big, a => { ex with bigBoothQuota := ex.bigBoothQuota - a }

/-- Increment the quota counter of one booth type
(`exhibition.smallBoothQuota += amount` / big symmetric). -/
def release (ex : Exhibition) : BoothType → Nat → Exhibition
  | .small, a => { ex with smallBoothQuota := ex.smallBoothQuota + a }
  | .big, a => { ex with bigBoothQuota := ex.bigBoothQuota + a }

/-- Lookup `Exhibition.findById`. -/
def findExhibition (db : DB) (i : Nat) : Option Exhibition :=
  db.exhibitions.find? (fun e => e.exId == i)

/-- Saving via `exhibition.save()` after in-memory mutation: the stored document with
the same id is replaced. -/
def setExhibition (db : DB) (ex : Exhibition) : DB :=
  { db with exhibitions := db.exhibitions.map (fun e => if e.exId == ex.exId then ex else e) }

def sumAmounts (l : List Booking) : Nat :=
  (l.map Booking.amount).sum

/-- Aggregate `$match {user, exhibition}` + `$sum '$amount'`
(`userBookings` in createBooking, `checkTotalBooths`). -/
def userExSum (l : List Booking) (u e : Nat) : Nat :=
  sumAmounts (l.filter (fun b => b.user == u && b.exhibition == e))

/-- Aggregate `$match {exhibition, boothType}` + `$sum '$amount'`
(`bookedBooths` in createBooking — computed there but never used). -/
def typeExSum (l : List Booking) (e : Nat) (t : BoothType) : Nat :=
  sumAmounts (l.filter (fun b => b.exhibition == e && b.boothType == t))

/-- Aggregate in the `pre('save')` middleware: the pair's bookings with
`_id: { $ne: this._id }`. -/
def otherSum (l : List Booking) (u e i : Nat) : Nat :=
  sumAmounts (l.filter (fun b => b.user == u && b.exhibition == e && !(b.bookId == i)))

/-- Mongoose `this.isModified('amount')` at save time: true for a new
document, and for an existing one true iff the amount being saved differs
from the stored amount. -/
def amountModified (l : List Booking) (b : Booking) : Bool :=
  match l.find? (fun x => x.bookId == b.bookId) with
  | none => true
  | some old => !(old.amount == b.amount)

inductive SaveError where
  | validationFailed
  | capExceeded
deriving DecidableEq, Repr

/-- Committing a booking document: replace the stored document with the
same id, or append when the id is new. -/
def upsertBooking (l : List Booking) (b : Booking) : List Booking :=
  if l.any (fun x => x.bookId == b.bookId) then
    l.map (fun x => if x.bookId == b.bookId then b else x)
  else l ++ [b]

/-- Persisting via `Booking.create` / `booking.save()`: schema validation
(`amount ≥ 1`) runs first, then the `pre('save')` middleware — when the
amount is modified and the other bookings of the same (user, exhibition)
pair plus this amount exceed 6, the save is rejected with the cap error;
otherwise the document is committed. -/
def bookingSave (db : DB) (b : Booking) : Except SaveError DB :=
  if b.amount < 1 then .error .validationFailed
  else if amountModified db.bookings b = true ∧
          6 < otherSum db.bookings b.user b.exhibition b.bookId + b.amount then
    .error .capExceeded
  else .ok { db with bookings := upsertBooking db.bookings b }

/-- Fresh `_id` for `Booking.create`. -/
def freshBookingId (l : List Booking) : Nat :=
  (l.map Booking.bookId).foldr max 0 + 1

/-- The `exports.createBooking` handler of the booking controller.  Returns the HTTP
status and the resulting state.  The source also computes the aggregate
`bookedBooths` over (exhibition, boothType) at this point, but never uses
it: the quota check compares the requested amount against the live
counter `availableQuota` only. -/
def createBooking (today : Int) (db : DB) (p : Principal)
    (exhibitionId : Nat) (reqBoothType : Option BoothType) (reqAmount : Nat) : Nat × DB :=
  match findExhibition db exhibitionId with
  | none => (404, db)
  | some exhibition =>
    match reqBoothType with
    | none => (400, db)
    | some boothType =>
      if exhibition.startDate < today then (400, db)
      else
        let availableQuota := exhibition.quota boothType
        if availableQuota < reqAmount then (400, db)
        else
          let userTotalBooths := userExSum db.bookings p.id exhibitionId
          if 6 < userTotalBooths + reqAmount then (400, db)
          else
            let booking : Booking :=
              { bookId := freshBookingId db.bookings, user := p.id,
                exhibition := exhibitionId, boothType := boothType, amount := reqAmount }
            match bookingSave db booking with
            | .error _ => (500, db)
            | .ok db1 => (201, setExhibition db1 (reserve exhibition boothType reqAmount))

/-- The `exports.getBooking` handler: lookup by id, then the ownership check
`booking.user._id.toString() !== req.user.id && req.user.role !== 'admin'`
answered with 401.  Read-only, so only the status is returned. -/
def getBooking (db : DB) (p : Principal) (bid : Nat) : Nat :=
  match db.bookings.find? (fun b => b.bookId == bid) with
  | none => 404
  | some booking =>
    if !(booking.user == p.id) && !(p.role == Role.admin) then 401 else 200

/-- The quota-restore step of `exports.deleteBooking`: `if (exhibition)`
restore the booking's amount into the counter of its booth type and save,
otherwise leave the state alone (no error). -/
def restoreQuota (db : DB) (booking : Booking) : DB :=
  match findExhibition db booking.exhibition with
  | none => db
  | some exhibition => setExhibition db (release exhibition booking.boothType booking.amount)

/-- The `exports.deleteBooking` handler: the query is `{_id}` for admins and
`{_id, user}` for members; when the referenced exhibition exists its
quota is restored and saved, then the booking is removed. -/
def deleteBooking (db : DB) (p : Principal) (bid : Nat) : Nat × DB :=
  match db.bookings.find? (fun b => b.bookId == bid && (p.role == Role.admin || b.user == p.id)) with
  | none => (404, db)
  | some booking =>
    let db1 := restoreQuota db booking
    (200, { db1 with bookings := db1.bookings.filter (fun b => !(b.bookId == booking.bookId)) })

/-- The `exports.updateBooking` handler.  Mirrors the source order exactly: find the
booking through the ownership query; reject a request boothType outside
{small, big} (this test is on the raw request value, so an omitted
boothType is rejected here and the `|| booking.boothType` fallback below
is unreachable for it); find the exhibition; restore the old reservation
into the in-memory counters; compute the new type/amount; check the
restored counter of the new type; then save the exhibition FIRST and the
booking second — a save error from the cap middleware is answered with
400 (validation errors with 500) with the exhibition already saved. -/
def updateBooking (db : DB) (p : Principal) (bid : Nat)
    (reqBoothType : Option BoothType) (reqAmount : Nat) : Nat × DB :=
  match db.bookings.find? (fun b => b.bookId == bid && (p.role == Role.admin || b.user == p.id)) with
  | none => (404, db)
  | some booking =>
    match reqBoothType with
    | none => (400, db)
    | some reqType =>
      match findExhibition db booking.exhibition with
      | none => (404, db)
      | some exhibition =>
        let restored := release exhibition booking.boothType booking.amount
        let newBoothType := reqType
        let newAmount := if reqAmount == 0 then booking.amount else reqAmount
        let quotaToCheck := restored.quota newBoothType
        if quotaToCheck < newAmount then (400, db)
        else
          let db1 := setExhibition db (reserve restored newBoothType newAmount)
          let newBooking := { booking with boothType := newBoothType, amount := newAmount }
          match bookingSave db1 newBooking with
          | .error .capExceeded => (400, db1)
          | .error .validationFailed => (500, db1)
          | .ok db2 => (200, db2)

/-- The `exports.deleteExhibition` handler: `findByIdAndDelete` — the exhibition
record alone is removed; bookings are not consulted. -/
def deleteExhibition (db : DB) (i : Nat) : Nat × DB :=
  match findExhibition db i with
  | none => (404, db)
  | some _ => (200, { db with exhibitions := db.exhibitions.filter (fun e => !(e.exId == i)) })

/-- The booking-mutating operations exposed by the router. -/
inductive Op where
  | create (p : Principal) (exhibitionId : Nat) (bt : Option BoothType) (amount : Nat)
  | update (p : Principal) (bid : Nat) (bt : Option BoothType) (amount : Nat)
  | delete (p : Principal) (bid : Nat)
deriving DecidableEq, Repr

def applyOp (today : Int) (db : DB) : Op → DB
  | .create p e bt a => (createBooking today db p e bt a).2
  | .update p bid bt a => (updateBooking db p bid bt a).2
  | .delete p bid => (deleteBooking db p bid).2

def runOps (today : Int) (db : DB) (ops : List Op) : DB :=
  ops.foldl (applyOp today) db

/-- Booking ids are pairwise distinct. -/
def uniqueIds (l : List Booking) : Prop :=
  (l.map Booking.bookId).Nodup

/-- The contribution of one booking to the (user, exhibition) aggregate. -/
def pairAmt (u e : Nat) (b : Booking) : Nat :=
  if b.user == u && b.exhibition == e then b.amount else 0

/-- Both stores satisfy: distinct booking ids and the per-pair cap. -/
def StoreInv (db : DB) : Prop :=
  uniqueIds db.bookings ∧ ∀ u e, userExSum db.bookings u e ≤ 6

lemma userExSum_nil (u e : Nat) : userExSum [] u e = 0 := rfl

lemma userExSum_cons (b : Booking) (l : List Booking) (u e : Nat) :
    userExSum (b :: l) u e = pairAmt u e b + userExSum l u e := by
  unfold userExSum pairAmt sumAmounts
  rw [List.filter_cons]
  split
  · simp
  · simp

lemma userExSum_append (l₁ l₂ : List Booking) (u e : Nat) :
    userExSum (l₁ ++ l₂) u e = userExSum l₁ u e + userExSum l₂ u e := by
  unfold userExSum sumAmounts
  rw [List.filter_append, List.map_append, List.sum_append]

lemma userExSum_single (b : Booking) (u e : Nat) :
    userExSum [b] u e = pairAmt u e b := by
  rw [show [b] = b :: ([] : List Booking) from rfl, userExSum_cons, userExSum_nil]
  omega

lemma sumAmounts_sublist {l₁ l₂ : List Booking} (h : l₁.Sublist l₂) :
    sumAmounts l₁ ≤ sumAmounts l₂ :=
  List.Sublist.sum_le_sum (List.Sublist.map Booking.amount h) (fun _ _ => Nat.zero_le _)

lemma userExSum_filter_le (q : Booking → Bool) (l : List Booking) (u e : Nat) :
    userExSum (l.filter q) u e ≤ userExSum l u e :=
  sumAmounts_sublist (List.Sublist.filter _ (List.filter_sublist l))

lemma userExSum_filter_ne (l : List Booking) (u e i : Nat) :
    userExSum (l.filter (fun x => !(x.bookId == i))) u e = otherSum l u e i := by
  unfold userExSum otherSum
  rw [List.filter_filter]

lemma le_foldr_max (n : Nat) (ns : List Nat) (h : n ∈ ns) : n ≤ ns.foldr max 0 := by
  induction ns with
  | nil => cases h
  | cons m ms ih =>
    rcases List.mem_cons.mp h with rfl | hm
    · exact Nat.le_max_left _ _
    · exact Nat.le_trans (ih hm) (Nat.le_max_right _ _)

lemma bookId_ne_fresh {l : List Booking} {b : Booking} (hb : b ∈ l) :
    (b.bookId == freshBookingId l) = false := by
  have hle : b.bookId ≤ (l.map Booking.bookId).foldr max 0 :=
    le_foldr_max _ _ (List.mem_map_of_mem Booking.bookId hb)
  have : b.bookId ≠ freshBookingId l := by
    unfold freshBookingId
    omega
  simpa using this

lemma find?_fresh_eq_none (l : List Booking) :
    l.find? (fun x => x.bookId == freshBookingId l) = none :=
  List.find?_eq_none.mpr (fun x hx => by simp [bookId_ne_fresh hx])

lemma otherSum_fresh (l : List Booking) (u e : Nat) :
    otherSum l u e (freshBookingId l) = userExSum l u e := by
  unfold otherSum userExSum
  exact congrArg sumAmounts
    (List.filter_congr (fun x hx => by simp [bookId_ne_fresh hx]))

lemma find?_bookId_unique {l : List Booking} {b0 : Booking} {i : Nat}
    (hU : uniqueIds l) (hb : b0 ∈ l) (hid : b0.bookId = i) :
    l.find? (fun x => x.bookId == i) = some b0 := by
  cases hfind : l.find? (fun x => x.bookId == i) with
  | none =>
    exact absurd (by simp [hid] : ((fun x => x.bookId == i) b0) = true)
      (List.find?_eq_none.mp hfind b0 hb)
  | some x =>
    have hx : x.bookId = i := by simpa using List.find?_some hfind
    have hxm : x ∈ l := List.mem_of_find?_eq_some hfind
    have : x = b0 := List.inj_on_of_nodup_map hU hxm hb (by rw [hx, hid])
    rw [this]

lemma uniqueIds_append_fresh {l : List Booking} {b : Booking}
    (hU : uniqueIds l) (hfresh : b.bookId ∉ l.map Booking.bookId) :
    uniqueIds (l ++ [b]) := by
  unfold uniqueIds at *
  rw [List.map_append]
  refine List.nodup_append.mpr ⟨hU, List.nodup_singleton _, ?_⟩
  intro x hx hx1
  have hxe : x = b.bookId := by simpa using hx1
  subst hxe
  exact hfresh hx

lemma userExSum_erase {l : List Booking} {b0 : Booking} (u e : Nat)
    (hU : uniqueIds l) (hb : b0 ∈ l) :
    userExSum l u e
      = userExSum (l.filter (fun x => !(x.bookId == b0.bookId))) u e + pairAmt u e b0 := by
  induction l with
  | nil => cases hb
  | cons c t ih =>
    have hU' : uniqueIds t := (List.nodup_cons.mp hU).2
    have hnotin : c.bookId ∉ t.map Booking.bookId := (List.nodup_cons.mp hU).1
    rcases List.mem_cons.mp hb with rfl | hbt
    · have htail : ∀ x ∈ t, (x.bookId == b0.bookId) = false := fun x hx => by
        have : x.bookId ≠ b0.bookId := fun hxc =>
          hnotin (hxc ▸ List.mem_map_of_mem Booking.bookId hx)
        simpa using this
      have hfilter : (b0 :: t).filter (fun x => !(x.bookId == b0.bookId)) = t := by
        rw [List.filter_cons, if_neg (by simp)]
        exact List.filter_eq_self.mpr (fun x hx => by simp [htail x hx])
      rw [hfilter, userExSum_cons]
      omega
    · have hne : (c.bookId == b0.bookId) = false := by
        have : c.bookId ≠ b0.bookId := fun hcb =>
          hnotin (hcb ▸ List.mem_map_of_mem Booking.bookId hbt)
        simpa using this
      have hfilter : (c :: t).filter (fun x => !(x.bookId == b0.bookId))
          = c :: t.filter (fun x => !(x.bookId == b0.bookId)) := by
        rw [List.filter_cons, if_pos (by simp [hne])]
      rw [hfilter, userExSum_cons, userExSum_cons, ih hU' hbt]
      omega

lemma map_replace_eq_self {l : List Booking} {i : Nat} {nb : Booking}
    (h : ∀ x ∈ l, x.bookId ≠ i) :
    l.map (fun x => if x.bookId == i then nb else x) = l := by
  rw [show l.map (fun x => if x.bookId == i then nb else x) = l.map id by
        exact List.map_congr_left (fun x hx => by simp [h x hx]), List.map_id]

lemma userExSum_replace {l : List Booking} {b0 nb : Booking} (u e : Nat)
    (hU : uniqueIds l) (hb : b0 ∈ l) :
    userExSum (l.map (fun x => if x.bookId == b0.bookId then nb else x)) u e
      = userExSum (l.filter (fun x => !(x.bookId == b0.bookId))) u e + pairAmt u e nb := by
  induction l with
  | nil => cases hb
  | cons c t ih =>
    have hU' : uniqueIds t := (List.nodup_cons.mp hU).2
    have hnotin : c.bookId ∉ t.map Booking.bookId := (List.nodup_cons.mp hU).1
    rcases List.mem_cons.mp hb with rfl | hbt
    · have htail : ∀ x ∈ t, x.bookId ≠ b0.bookId := fun x hx hxc =>
        hnotin (hxc ▸ List.mem_map_of_mem Booking.bookId hx)
      have hmap : (b0 :: t).map (fun x => if x.bookId == b0.bookId then nb else x)
          = nb :: t := by
        rw [List.map_cons, map_replace_eq_self htail]
        simp
      have hfilter : (b0 :: t).filter (fun x => !(x.bookId == b0.bookId)) = t := by
        rw [List.filter_cons, if_neg (by simp)]
        exact List.filter_eq_self.mpr (fun x hx => by simp [htail x hx])
      rw [hmap, hfilter, userExSum_cons]
      omega
    · have hne : (c.bookId == b0.bookId) = false := by
        have : c.bookId ≠ b0.bookId := fun hcb =>
          hnotin (hcb ▸ List.mem_map_of_mem Booking.bookId hbt)
        simpa using this
      have hmap : (c :: t).map (fun x => if x.bookId == b0.bookId then nb else x)
          = c :: t.map (fun x => if x.bookId == b0.bookId then nb else x) := by
        rw [List.map_cons]
        simp [hne]
      have hfilter : (c :: t).filter (fun x => !(x.bookId == b0.bookId))
          = c :: t.filter (fun x => !(x.bookId == b0.bookId)) := by
        rw [List.filter_cons, if_pos (by simp [hne])]
      rw [hmap, hfilter, userExSum_cons, userExSum_cons, ih hU' hbt]
      omega

lemma ids_map_replace (l : List Booking) (i : Nat) (nb : Booking) (hid : nb.bookId = i) :
    (l.map (fun x => if x.bookId == i then nb else x)).map Booking.bookId
      = l.map Booking.bookId := by
  rw [List.map_map]
  exact List.map_congr_left (fun x _ => by
    by_cases h : x.bookId = i
    · simp [Function.comp, h, hid]
    · simp [Function.comp, h])

lemma setExhibition_bookings (db : DB) (ex : Exhibition) :
    (setExhibition db ex).bookings = db.bookings := rfl

lemma bookingSave_ok_inv {db : DB} {b : Booking} {db1 : DB}
    (h : bookingSave db b = .ok db1) :
    db1.exhibitions = db.exhibitions ∧ db1.bookings = upsertBooking db.bookings b ∧
      1 ≤ b.amount ∧
      (amountModified db.bookings b = true →
        otherSum db.bookings b.user b.exhibition b.bookId + b.amount ≤ 6) := by
  unfold bookingSave at h
  by_cases h1 : b.amount < 1
  · rw [if_pos h1] at h
    exact Except.noConfusion h
  · rw [if_neg h1] at h
    by_cases h2 : amountModified db.bookings b = true ∧
        6 < otherSum db.bookings b.user b.exhibition b.bookId + b.amount
    · rw [if_pos h2] at h
      exact Except.noConfusion h
    · rw [if_neg h2] at h
      cases h
      refine ⟨rfl, rfl, by omega, fun hmod => ?_⟩
      by_contra hgt
      exact h2 ⟨hmod, by omega⟩

lemma bookingSave_cap_fail {db : DB} {b : Booking}
    (hval : ¬ b.amount < 1)
    (hmod : amountModified db.bookings b = true)
    (hover : 6 < otherSum db.bookings b.user b.exhibition b.bookId + b.amount) :
    bookingSave db b = .error .capExceeded := by
  unfold bookingSave
  rw [if_neg hval, if_pos ⟨hmod, hover⟩]

lemma bookingSave_commits {db : DB} {b : Booking}
    (hval : ¬ b.amount < 1)
    (hok : amountModified db.bookings b = true →
      otherSum db.bookings b.user b.exhibition b.bookId + b.amount ≤ 6) :
    bookingSave db b = .ok { db with bookings := upsertBooking db.bookings b } := by
  unfold bookingSave
  rw [if_neg hval, if_neg (fun hc => absurd hc.2 (Nat.not_lt.mpr (hok hc.1)))]

lemma upsertBooking_fresh {l : List Booking} {b : Booking}
    (h : l.find? (fun x => x.bookId == b.bookId) = none) :
    upsertBooking l b = l ++ [b] := by
  unfold upsertBooking
  rw [if_neg (fun hany => by
    obtain ⟨x, hx, hpx⟩ := List.any_eq_true.mp hany
    exact (List.find?_eq_none.mp h x hx) hpx)]

lemma upsertBooking_existing {l : List Booking} {b b0 : Booking}
    (hb : b0 ∈ l) (hid : b0.bookId = b.bookId) :
    upsertBooking l b = l.map (fun x => if x.bookId == b.bookId then b else x) := by
  unfold upsertBooking
  rw [if_pos (List.any_eq_true.mpr ⟨b0, hb, by simp [hid]⟩)]

lemma storeInv_of_bookings_eq {db db' : DB} (h : db'.bookings = db.bookings)
    (hInv : StoreInv db) : StoreInv db' := by
  refine ⟨?_, ?_⟩ <;> rw [show db'.bookings = db.bookings from h]
  · exact hInv.1
  · exact hInv.2

lemma storeInv_filter {db db' : DB} (q : Booking → Bool)
    (h : db'.bookings = db.bookings.filter q) (hInv : StoreInv db) : StoreInv db' := by
  constructor
  · rw [h]
    exact List.Nodup.sublist (List.Sublist.map _ (List.filter_sublist _)) hInv.1
  · intro u e
    rw [h]
    exact Nat.le_trans (userExSum_filter_le q _ u e) (hInv.2 u e)

lemma restoreQuota_bookings (db : DB) (b : Booking) :
    (restoreQuota db b).bookings = db.bookings := by
  unfold restoreQuota
  cases findExhibition db b.exhibition <;> rfl

lemma fresh_not_mem_ids (l : List Booking) : freshBookingId l ∉ l.map Booking.bookId := by
  intro hmem
  have hle := le_foldr_max _ _ hmem
  unfold freshBookingId at hle
  omega

lemma cap_after_append {l : List Booking} {b : Booking}
    (hInv : ∀ u e, userExSum l u e ≤ 6)
    (hb : userExSum l b.user b.exhibition + b.amount ≤ 6) :
    ∀ u e, userExSum (l ++ [b]) u e ≤ 6 := by
  intro u e
  rw [userExSum_append, userExSum_single]
  unfold pairAmt
  by_cases hc : (b.user == u && b.exhibition == e) = true
  · have hu : b.user = u := by
      have := (Bool.and_eq_true _ _).mp hc
      simpa using this.1
    have he : b.exhibition = e := by
      have := (Bool.and_eq_true _ _).mp hc
      simpa using this.2
    rw [if_pos hc, ← hu, ← he]
    exact hb
  · rw [if_neg hc]
    have := hInv u e
    omega

lemma pairAmt_self {u e : Nat} {b : Booking} (hu : b.user = u) (he : b.exhibition = e) :
    pairAmt u e b = b.amount := by
  unfold pairAmt
  rw [if_pos (by simp [hu, he])]

lemma amountModified_false {l : List Booking} {b b0 : Booking}
    (hU : uniqueIds l) (hb : b0 ∈ l) (hid : b0.bookId = b.bookId)
    (h : amountModified l b = false) : b.amount = b0.amount := by
  unfold amountModified at h
  rw [find?_bookId_unique hU hb hid] at h
  have := by simpa using h
  omega

lemma cap_after_replace {l : List Booking} {b0 nb : Booking}
    (hU : uniqueIds l) (hb : b0 ∈ l)
    (hsame : nb.user = b0.user ∧ nb.exhibition = b0.exhibition)
    (hcase : nb.amount = b0.amount ∨
      otherSum l nb.user nb.exhibition b0.bookId + nb.amount ≤ 6)
    (hInv : ∀ u e, userExSum l u e ≤ 6) :
    ∀ u e, userExSum (l.map (fun x => if x.bookId == b0.bookId then nb else x)) u e ≤ 6 := by
  intro u e
  rw [userExSum_replace u e hU hb]
  by_cases hc : (nb.user == u && nb.exhibition == e) = true
  · have hu : nb.user = u := by
      have := (Bool.and_eq_true _ _).mp hc
      simpa using this.1
    have he : nb.exhibition = e := by
      have := (Bool.and_eq_true _ _).mp hc
      simpa using this.2
    rw [pairAmt_self hu he]
    subst hu
    subst he
    rcases hcase with hamt | hcap
    · have herase := userExSum_erase nb.user nb.exhibition hU hb
      rw [pairAmt_self hsame.1.symm hsame.2.symm] at herase
      have := hInv nb.user nb.exhibition
      omega
    · rw [userExSum_filter_ne]
      exact hcap
  · have hz : pairAmt u e nb = 0 := by
      unfold pairAmt
      rw [if_neg hc]
    rw [hz]
    have hle := userExSum_filter_le (fun x => !(x.bookId == b0.bookId)) l u e
    have := hInv u e
    omega

lemma storeInv_createBooking (today : Int) (db : DB) (p : Principal)
    (eid : Nat) (bt : Option BoothType) (a : Nat) (hInv : StoreInv db) :
    StoreInv (createBooking today db p eid bt a).2 := by
  unfold createBooking
  cases hfe : findExhibition db eid with
  | none => exact hInv
  | some ex =>
    cases bt with
    | none => exact hInv
    | some t =>
      dsimp only
      by_cases hdate : ex.startDate < today
      · rw [if_pos hdate]
        exact hInv
      · rw [if_neg hdate]
        by_cases hq : ex.quota t < a
        · rw [if_pos hq]
          exact hInv
        · rw [if_neg hq]
          by_cases hcap : 6 < userExSum db.bookings p.id eid + a
          · rw [if_pos hcap]
            exact hInv
          · rw [if_neg hcap]
            cases hsave : bookingSave db
                { bookId := freshBookingId db.bookings, user := p.id,
                  exhibition := eid, boothType := t, amount := a } with
            | error err => exact hInv
            | ok db1 =>
              obtain ⟨hexs, hbk, hamt, hcap2⟩ := bookingSave_ok_inv hsave
              rw [upsertBooking_fresh (find?_fresh_eq_none db.bookings)] at hbk
              refine ⟨?_, ?_⟩ <;>
                rw [show (setExhibition db1 (reserve ex t a)).bookings = db1.bookings from rfl, hbk]
              · exact uniqueIds_append_fresh hInv.1 (fresh_not_mem_ids db.bookings)
              · exact cap_after_append hInv.2 (Nat.le_of_not_lt hcap)

lemma storeInv_deleteBooking (db : DB) (p : Principal) (bid : Nat)
    (hInv : StoreInv db) : StoreInv (deleteBooking db p bid).2 := by
  unfold deleteBooking
  cases hfind : db.bookings.find?
      (fun b => b.bookId == bid && (p.role == Role.admin || b.user == p.id)) with
  | none => exact hInv
  | some booking =>
    refine storeInv_filter (fun b => !(b.bookId == booking.bookId)) ?_ hInv
    dsimp only
    rw [restoreQuota_bookings]

lemma storeInv_update_commit {db db2 : DB} {booking nb : Booking} {ex1 : Exhibition}
    (hInv : StoreInv db) (hbmem : booking ∈ db.bookings)
    (hsave : bookingSave (setExhibition db ex1) nb = .ok db2)
    (hid : nb.bookId = booking.bookId) (huser : nb.user = booking.user)
    (hex : nb.exhibition = booking.exhibition) :
    StoreInv db2 := by
  obtain ⟨hexs, hbk, hamt, hcap2⟩ := bookingSave_ok_inv hsave
  rw [setExhibition_bookings] at hbk hcap2
  rw [upsertBooking_existing hbmem hid.symm] at hbk
  simp only [hid] at hbk
  constructor
  · rw [hbk]
    unfold uniqueIds
    rw [ids_map_replace _ _ _ hid]
    exact hInv.1
  · rw [hbk]
    refine cap_after_replace hInv.1 hbmem ⟨huser, hex⟩ ?_ hInv.2
    by_cases hmod : amountModified db.bookings nb = true
    · have h2 := hcap2 hmod
      rw [hid] at h2
      exact Or.inr h2
    · exact Or.inl (amountModified_false hInv.1 hbmem hid.symm (Bool.not_eq_true _ ▸ hmod))

lemma storeInv_updateBooking (db : DB) (p : Principal) (bid : Nat)
    (bt : Option BoothType) (a : Nat) (hInv : StoreInv db) :
    StoreInv (updateBooking db p bid bt a).2 := by
  unfold updateBooking
  cases hfind : db.bookings.find?
      (fun b => b.bookId == bid && (p.role == Role.admin || b.user == p.id)) with
  | none => exact hInv
  | some booking =>
    have hbmem : booking ∈ db.bookings := List.mem_of_find?_eq_some hfind
    dsimp only
    cases bt with
    | none => exact hInv
    | some reqType =>
      dsimp only
      cases hfe : findExhibition db booking.exhibition with
      | none => exact hInv
      | some exhibition =>
        dsimp only
        by_cases hq : (release exhibition booking.boothType booking.amount).quota reqType
            < (if (a == 0) = true then booking.amount else a)
        · rw [if_pos hq]
          exact hInv
        · rw [if_neg hq]
          cases hsave : bookingSave
              (setExhibition db (reserve (release exhibition booking.boothType booking.amount)
                reqType (if (a == 0) = true then booking.amount else a)))
              { bookId := booking.bookId, user := booking.user, exhibition := booking.exhibition, boothType := reqType, amount := if (a == 0) = true then booking.amount else a } with
          | error err =>
            cases err <;> exact storeInv_of_bookings_eq (setExhibition_bookings _ _) hInv
          | ok db2 =>
            dsimp only
            exact storeInv_update_commit hInv hbmem hsave rfl rfl rfl

lemma storeInv_applyOp (today : Int) (db : DB) (op : Op) (hInv : StoreInv db) :
    StoreInv (applyOp today db op) := by
  cases op with
  | create p e bt a => exact storeInv_createBooking today db p e bt a hInv
  | update p bid bt a => exact storeInv_updateBooking db p bid bt a hInv
  | delete p bid => exact storeInv_deleteBooking db p bid hInv

lemma storeInv_runOps (today : Int) (ops : List Op) :
    ∀ db : DB, StoreInv db → StoreInv (runOps today db ops) := by
  induction ops with
  | nil => exact fun db h => h
  | cons op rest ih => exact fun db h => ih _ (storeInv_applyOp today db op h)

/-- C2: starting from a state with no bookings, after any sequence of the
exposed booking operations (create, update, delete) the sum of `amount`
over the stored bookings of every (user, exhibition) pair is at most 6. -/
theorem cap_invariant_always (today : Int) (exs : List Exhibition) (ops : List Op)
    (u e : Nat) :
    userExSum (runOps today { exhibitions := exs, bookings := [] } ops).bookings u e ≤ 6 :=
  (storeInv_runOps today ops { exhibitions := exs, bookings := [] }
    ⟨List.nodup_nil, fun _ _ => by rw [userExSum_nil]; omega⟩).2 u e

/-- C3: a createBooking request whose amount exceeds the exhibition's live
quota counter for the requested booth type is answered 400 (BadRequest) and
leaves the whole state — booking store and quota counters — unchanged.
The embedded `createBooking` compares the amount against the live counter
only; the per-type aggregate the source computes is unused. -/
theorem createBooking_insufficient_quota (today : Int) (db : DB) (p : Principal)
    (eid : Nat) (t : BoothType) (a : Nat) (ex : Exhibition)
    (hex : findExhibition db eid = some ex)
    (hq : ex.quota t < a) :
    createBooking today db p eid (some t) a = (400, db) := by
  unfold createBooking
  rw [hex]
  dsimp only
  by_cases hdate : ex.startDate < today
  · rw [if_pos hdate]
  · rw [if_neg hdate, if_pos hq]

theorem createBooking_insufficient_quota_witness :
    createBooking 0 { exhibitions := [⟨1, 5, 2, 2⟩], bookings := [] } ⟨7, Role.member⟩ 1
        (some BoothType.small) 3
      = (400, { exhibitions := [⟨1, 5, 2, 2⟩], bookings := [] }) :=
  createBooking_insufficient_quota 0 _ ⟨7, Role.member⟩ 1 BoothType.small 3 ⟨1, 5, 2, 2⟩
    (by decide) (by decide)

/-- C4: when the exhibition exists, the booth type is valid, the start date
has not passed and the amount fits the live quota, createBooking fails with
400 and no state change precisely when the user's existing booth total for
the exhibition plus the requested amount exceeds 6, and otherwise succeeds
with 201, appending the new booking (e.g. amounts 3, 3, 1 by one user:
the first two pass this rule, the third is rejected). -/
theorem createBooking_cap_rule (today : Int) (db : DB) (p : Principal)
    (eid : Nat) (t : BoothType) (a : Nat) (ex : Exhibition)
    (hex : findExhibition db eid = some ex)
    (hdate : ¬ ex.startDate < today)
    (hq : ¬ ex.quota t < a)
    (ha : 1 ≤ a) :
    (6 < userExSum db.bookings p.id eid + a →
      createBooking today db p eid (some t) a = (400, db)) ∧
    (userExSum db.bookings p.id eid + a ≤ 6 →
      (createBooking today db p eid (some t) a).1 = 201 ∧
      (createBooking today db p eid (some t) a).2.bookings
        = db.bookings
            ++ [{ bookId := freshBookingId db.bookings, user := p.id,
                  exhibition := eid, boothType := t, amount := a }]) := by
  constructor
  · intro hcap
    unfold createBooking
    rw [hex]
    dsimp only
    rw [if_neg hdate, if_neg hq, if_pos hcap]
  · intro hcap
    unfold createBooking
    rw [hex]
    dsimp only
    rw [if_neg hdate, if_neg hq, if_neg (by omega)]
    rw [bookingSave_commits (show ¬ a < 1 by omega)
      (fun _ => show otherSum db.bookings p.id eid (freshBookingId db.bookings) + a ≤ 6 by
        rw [otherSum_fresh]
        omega)]
    dsimp only
    refine ⟨rfl, ?_⟩
    rw [setExhibition_bookings]
    exact upsertBooking_fresh (find?_fresh_eq_none db.bookings)

theorem createBooking_cap_rule_witness :
    createBooking 0
        { exhibitions := [⟨1, 100, 10, 5⟩],
          bookings := [⟨1, 7, 1, BoothType.small, 3⟩, ⟨2, 7, 1, BoothType.small, 3⟩] }
        ⟨7, Role.member⟩ 1 (some BoothType.small) 1
      = (400,
          { exhibitions := [⟨1, 100, 10, 5⟩],
            bookings := [⟨1, 7, 1, BoothType.small, 3⟩, ⟨2, 7, 1, BoothType.small, 3⟩] }) :=
  (createBooking_cap_rule 0 _ ⟨7, Role.member⟩ 1 BoothType.small 1 ⟨1, 100, 10, 5⟩
    (by decide) (by decide) (by decide) (by decide)).1 (by decide)

lemma release_quota_same (ex : Exhibition) (t : BoothType) (a : Nat) :
    (release ex t a).quota t = ex.quota t + a := by
  cases t <;> rfl

lemma release_quota_other (ex : Exhibition) (t t1 : BoothType) (a : Nat) (h : t1 ≠ t) :
    (release ex t a).quota t1 = ex.quota t1 := by
  cases t <;> cases t1 <;> first | rfl | exact absurd rfl h

lemma release_exId (ex : Exhibition) (t : BoothType) (a : Nat) :
    (release ex t a).exId = ex.exId := by
  cases t <;> rfl

lemma reserve_quota_same (ex : Exhibition) (t : BoothType) (a : Nat) :
    (reserve ex t a).quota t = ex.quota t - a := by
  cases t <;> rfl

lemma reserve_quota_other (ex : Exhibition) (t t1 : BoothType) (a : Nat) (h : t1 ≠ t) :
    (reserve ex t a).quota t1 = ex.quota t1 := by
  cases t <;> cases t1 <;> first | rfl | exact absurd rfl h

lemma reserve_exId (ex : Exhibition) (t : BoothType) (a : Nat) :
    (reserve ex t a).exId = ex.exId := by
  cases t <;> rfl

lemma find?_exId_set (ex ex1 : Exhibition) (i : Nat) (hid : ex1.exId = ex.exId) :
    ∀ l : List Exhibition, l.find? (fun e => e.exId == i) = some ex →
      (l.map (fun e => if e.exId == ex1.exId then ex1 else e)).find? (fun e => e.exId == i)
        = some ex1 := by
  intro l
  induction l with
  | nil => intro h; exact absurd h (by simp)
  | cons c t ih =>
    intro hfind
    by_cases hc : c.exId = i
    · have hfc : (c :: t).find? (fun e => e.exId == i) = some c :=
        List.find?_cons_of_pos _ (by simp [hc])
      rw [hfc] at hfind
      have hce : c = ex := by
        have := hfind
        simpa using this
      rw [List.map_cons, if_pos (by simp [hid, ← hce])]
      exact List.find?_cons_of_pos _ (by simp [hid, ← hce, hc])
    · have hfc : (c :: t).find? (fun e => e.exId == i) = t.find? (fun e => e.exId == i) :=
        List.find?_cons_of_neg _ (by simp [hc])
      rw [hfc] at hfind
      have hexi : ex.exId = i := by simpa using List.find?_some hfind
      have hhead : (if c.exId == ex1.exId then ex1 else c) = c := by
        rw [if_neg (fun h => hc (by
          have hcx : c.exId = ex1.exId := by simpa using h
          rw [hcx, hid, hexi]))]
      rw [List.map_cons, hhead]
      rw [List.find?_cons_of_neg _ (by simp [hc])]
      exact ih hfind

lemma findExhibition_set {db : DB} {i : Nat} {ex ex1 : Exhibition}
    (hfind : findExhibition db i = some ex) (hid : ex1.exId = ex.exId) :
    findExhibition (setExhibition db ex1) i = some ex1 :=
  find?_exId_set ex ex1 i hid db.exhibitions hfind

/-- C9: a deleteBooking whose ownership query finds the booking succeeds
with 200, removes exactly that booking, and — when the referenced
exhibition exists — adds exactly the booking amount back to the counter of
its booth type, leaving the other counter alone; when the exhibition is
missing, the booking is removed with the exhibition store untouched and no
error. -/
theorem deleteBooking_restores_quota (db : DB) (p : Principal) (bid : Nat) (b0 : Booking)
    (hfind : db.bookings.find?
      (fun b => b.bookId == bid && (p.role == Role.admin || b.user == p.id)) = some b0) :
    (deleteBooking db p bid).1 = 200 ∧
    (deleteBooking db p bid).2.bookings
      = db.bookings.filter (fun b => !(b.bookId == b0.bookId)) ∧
    (∀ ex, findExhibition db b0.exhibition = some ex →
      findExhibition (deleteBooking db p bid).2 b0.exhibition
          = some (release ex b0.boothType b0.amount) ∧
      (release ex b0.boothType b0.amount).quota b0.boothType
          = ex.quota b0.boothType + b0.amount ∧
      ∀ t, t ≠ b0.boothType → (release ex b0.boothType b0.amount).quota t = ex.quota t) ∧
    (findExhibition db b0.exhibition = none →
      (deleteBooking db p bid).2.exhibitions = db.exhibitions) := by
  unfold deleteBooking
  rw [hfind]
  dsimp only
  refine ⟨rfl, ?_, ?_, ?_⟩
  · rw [restoreQuota_bookings]
  · intro ex hex
    have hrq : restoreQuota db b0 = setExhibition db (release ex b0.boothType b0.amount) := by
      unfold restoreQuota
      rw [hex]
    refine ⟨?_, release_quota_same ex b0.boothType b0.amount,
      fun t ht => release_quota_other ex b0.boothType t b0.amount ht⟩
    show findExhibition (restoreQuota db b0) b0.exhibition = _
    rw [hrq]
    exact findExhibition_set hex (release_exId ex b0.boothType b0.amount)
  · intro hex
    show (restoreQuota db b0).exhibitions = db.exhibitions
    unfold restoreQuota
    rw [hex]

theorem deleteBooking_restores_quota_witness :
    (deleteBooking ⟨[⟨1, 100, 2, 5⟩], [⟨1, 7, 1, BoothType.small, 3⟩]⟩ ⟨7, Role.member⟩ 1).1 = 200 ∧
    findExhibition (deleteBooking ⟨[⟨1, 100, 2, 5⟩], [⟨1, 7, 1, BoothType.small, 3⟩]⟩ ⟨7, Role.member⟩ 1).2 1
      = some (release ⟨1, 100, 2, 5⟩ BoothType.small 3) :=
  have h := deleteBooking_restores_quota ⟨[⟨1, 100, 2, 5⟩], [⟨1, 7, 1, BoothType.small, 3⟩]⟩
    ⟨7, Role.member⟩ 1 ⟨1, 7, 1, BoothType.small, 3⟩ (by decide)
  ⟨h.1, (h.2.2.1 ⟨1, 100, 2, 5⟩ (by decide)).1⟩

/-- C10: deleting an exhibition removes only the exhibition record: the
booking store is untouched in every case (referencing bookings are neither
cascade-deleted nor do they block the deletion), and when the exhibition
exists the deletion succeeds with 200. -/
theorem deleteExhibition_orphans_bookings (db : DB) (i : Nat) :
    (deleteExhibition db i).2.bookings = db.bookings ∧
    (∀ ex, findExhibition db i = some ex →
      (deleteExhibition db i).1 = 200 ∧
      (deleteExhibition db i).2.exhibitions
        = db.exhibitions.filter (fun e => !(e.exId == i))) := by
  unfold deleteExhibition
  cases hfe : findExhibition db i with
  | none => exact ⟨rfl, fun ex hex => Option.noConfusion hex⟩
  | some ex0 => exact ⟨rfl, fun ex hex => ⟨rfl, rfl⟩⟩

theorem deleteExhibition_orphans_bookings_witness :
    (deleteExhibition ⟨[⟨1, 100, 5, 5⟩], [⟨1, 7, 1, BoothType.small, 2⟩]⟩ 1).2.bookings
      = [⟨1, 7, 1, BoothType.small, 2⟩] ∧
    (deleteExhibition ⟨[⟨1, 100, 5, 5⟩], [⟨1, 7, 1, BoothType.small, 2⟩]⟩ 1).1 = 200 :=
  have h := deleteExhibition_orphans_bookings ⟨[⟨1, 100, 5, 5⟩], [⟨1, 7, 1, BoothType.small, 2⟩]⟩ 1
  ⟨h.1, (h.2 ⟨1, 100, 5, 5⟩ (by decide)).1⟩

lemma memberQuery_eq_none {db : DB} {b0 : Booking} {bid : Nat} {p : Principal}
    (hU : uniqueIds db.bookings)
    (hfind : db.bookings.find? (fun x => x.bookId == bid) = some b0)
    (hrole : p.role = Role.member) (hB : b0.user ≠ p.id) :
    db.bookings.find?
      (fun b => b.bookId == bid && (p.role == Role.admin || b.user == p.id)) = none := by
  apply List.find?_eq_none.mpr
  intro x hx hpx
  have hrm : (p.role == Role.admin) = false := by
    rw [hrole]
    rfl
  rw [hrm] at hpx
  have h1 : x.bookId = bid ∧ x.user = p.id := by simpa using hpx
  have hb0mem : b0 ∈ db.bookings := List.mem_of_find?_eq_some hfind
  have hb0id : b0.bookId = bid := by simpa using List.find?_some hfind
  have hxb : x = b0 := List.inj_on_of_nodup_map hU hx hb0mem (by rw [h1.1, hb0id])
  exact hB (by rw [← hxb, h1.2])

lemma adminQuery_eq {db : DB} {bid : Nat} {p : Principal} (hrole : p.role = Role.admin) :
    db.bookings.find? (fun b => b.bookId == bid && (p.role == Role.admin || b.user == p.id))
      = db.bookings.find? (fun b => b.bookId == bid) := by
  refine congrArg (fun f => List.find? f db.bookings) (funext (fun b => ?_))
  rw [hrole]
  simp

lemma amountModified_self {l : List Booking} {b0 nb : Booking}
    (hU : uniqueIds l) (hb : b0 ∈ l) (hid : nb.bookId = b0.bookId)
    (hamt : nb.amount = b0.amount) :
    amountModified l nb = false := by
  unfold amountModified
  rw [find?_bookId_unique hU hb hid.symm]
  simp [hamt]

/-- C7 (amended): for a booking owned by user A: a member principal B with
B ≠ A receives 401 from getBooking, while updateBooking and deleteBooking
answer 404 NotFound (the ownership filter in their query hides the booking)
with no state change; an admin principal passes the ownership rules on all
three operations — getBooking 200, deleteBooking 200, and updateBooking 200
for an identity update. -/
theorem ownership_rules (db : DB) (b0 : Booking) (bid B adminId : Nat) (ex : Exhibition)
    (hU : uniqueIds db.bookings)
    (hfind : db.bookings.find? (fun x => x.bookId == bid) = some b0)
    (hB : b0.user ≠ B)
    (hamt : 1 ≤ b0.amount)
    (hex : findExhibition db b0.exhibition = some ex) :
    getBooking db ⟨B, Role.member⟩ bid = 401 ∧
    updateBooking db ⟨B, Role.member⟩ bid (some b0.boothType) b0.amount = (404, db) ∧
    deleteBooking db ⟨B, Role.member⟩ bid = (404, db) ∧
    getBooking db ⟨adminId, Role.admin⟩ bid = 200 ∧
    (updateBooking db ⟨adminId, Role.admin⟩ bid (some b0.boothType) b0.amount).1 = 200 ∧
    (deleteBooking db ⟨adminId, Role.admin⟩ bid).1 = 200 := by
  have hb0mem : b0 ∈ db.bookings := List.mem_of_find?_eq_some hfind
  refine ⟨?_, ?_, ?_, ?_, ?_, ?_⟩
  · unfold getBooking
    rw [hfind]
    dsimp only
    rw [if_pos (by simp [hB])]
  · unfold updateBooking
    rw [memberQuery_eq_none hU hfind rfl hB]
  · unfold deleteBooking
    rw [memberQuery_eq_none hU hfind rfl hB]
  · unfold getBooking
    rw [hfind]
    dsimp only
    rw [if_neg (by simp)]
  · unfold updateBooking
    rw [adminQuery_eq rfl, hfind]
    dsimp only
    rw [hex]
    dsimp only
    simp only [ite_self]
    rw [if_neg (show ¬ (release ex b0.boothType b0.amount).quota b0.boothType < b0.amount by
      rw [release_quota_same]
      omega)]
    have hsave : bookingSave
        (setExhibition db (reserve (release ex b0.boothType b0.amount) b0.boothType b0.amount))
        ⟨b0.bookId, b0.user, b0.exhibition, b0.boothType, b0.amount⟩
      = .ok { setExhibition db (reserve (release ex b0.boothType b0.amount) b0.boothType
                b0.amount) with
              bookings := upsertBooking (setExhibition db (reserve (release ex b0.boothType
                b0.amount) b0.boothType b0.amount)).bookings
                ⟨b0.bookId, b0.user, b0.exhibition, b0.boothType, b0.amount⟩ } :=
      bookingSave_commits (show ¬ b0.amount < 1 by omega)
        (fun hmod => absurd ((amountModified_self hU hb0mem rfl rfl).symm.trans hmod) (by simp))
    rw [hsave]
  · unfold deleteBooking
    rw [adminQuery_eq rfl, hfind]

/-- C7 counterexample: member 2 acting on member 1 booking: deleteBooking
and updateBooking answer 404 (NotFound, with the state unchanged), and
getBooking answers 401 — none of the three is the 403 Forbidden kind, and
update and delete do not even distinguish the ownership violation from a
missing booking. -/
theorem ownership_counterexample :
    deleteBooking ⟨[⟨1, 100, 5, 5⟩], [⟨1, 1, 1, BoothType.small, 2⟩]⟩ ⟨2, Role.member⟩ 1
        = (404, ⟨[⟨1, 100, 5, 5⟩], [⟨1, 1, 1, BoothType.small, 2⟩]⟩) ∧
    updateBooking ⟨[⟨1, 100, 5, 5⟩], [⟨1, 1, 1, BoothType.small, 2⟩]⟩ ⟨2, Role.member⟩ 1
        (some BoothType.small) 2
        = (404, ⟨[⟨1, 100, 5, 5⟩], [⟨1, 1, 1, BoothType.small, 2⟩]⟩) ∧
    getBooking ⟨[⟨1, 100, 5, 5⟩], [⟨1, 1, 1, BoothType.small, 2⟩]⟩ ⟨2, Role.member⟩ 1 = 401 := by
  decide

theorem ownership_rules_witness :
    getBooking ⟨[⟨1, 100, 5, 5⟩], [⟨1, 1, 1, BoothType.small, 2⟩]⟩ ⟨0, Role.admin⟩ 1 = 200 ∧
    (deleteBooking ⟨[⟨1, 100, 5, 5⟩], [⟨1, 1, 1, BoothType.small, 2⟩]⟩ ⟨0, Role.admin⟩ 1).1
      = 200 :=
  have h := ownership_rules ⟨[⟨1, 100, 5, 5⟩], [⟨1, 1, 1, BoothType.small, 2⟩]⟩
    ⟨1, 1, 1, BoothType.small, 2⟩ 1 2 0 ⟨1, 100, 5, 5⟩
    (by unfold uniqueIds; decide) (by decide) (by decide) (by decide) (by decide)
  ⟨h.2.2.2.1, h.2.2.2.2.2⟩

/-- C8 (amended): the boothType argument of updateBooking is effectively
required: whenever the ownership query finds the booking, a request that
omits boothType is rejected with 400 and no state change, regardless of the
booking stored boothType — the source validates the raw request value
before the `|| booking.boothType` fallback, which is therefore unreachable
for an omitted boothType. -/
theorem updateBooking_requires_boothType (db : DB) (p : Principal) (bid : Nat)
    (b0 : Booking) (a : Nat)
    (hfind : db.bookings.find?
      (fun b => b.bookId == bid && (p.role == Role.admin || b.user == p.id)) = some b0) :
    updateBooking db p bid none a = (400, db) := by
  unfold updateBooking
  rw [hfind]

/-- C8 counterexample: the owner updates their own booking (stored boothType
small — a valid resulting type — ample quota, amount within the cap) but
omits boothType in the request; the operation is rejected with 400, where
the claim requires it not to fail. -/
theorem updateBooking_omitted_boothType_rejected :
    updateBooking ⟨[⟨1, 100, 5, 5⟩], [⟨1, 7, 1, BoothType.small, 2⟩]⟩ ⟨7, Role.member⟩ 1
        none 3
      = (400, ⟨[⟨1, 100, 5, 5⟩], [⟨1, 7, 1, BoothType.small, 2⟩]⟩) := by
  decide

theorem updateBooking_requires_boothType_witness :
    updateBooking ⟨[⟨1, 100, 5, 5⟩], [⟨1, 7, 1, BoothType.big, 4⟩]⟩ ⟨7, Role.member⟩ 1 none 2
      = (400, ⟨[⟨1, 100, 5, 5⟩], [⟨1, 7, 1, BoothType.big, 4⟩]⟩) :=
  updateBooking_requires_boothType ⟨[⟨1, 100, 5, 5⟩], [⟨1, 7, 1, BoothType.big, 4⟩]⟩
    ⟨7, Role.member⟩ 1 ⟨1, 7, 1, BoothType.big, 4⟩ 2 (by decide)

lemma amountModified_ne {l : List Booking} {b0 nb : Booking}
    (hU : uniqueIds l) (hb : b0 ∈ l) (hid : nb.bookId = b0.bookId)
    (hne : nb.amount ≠ b0.amount) :
    amountModified l nb = true := by
  unfold amountModified
  rw [find?_bookId_unique hU hb hid.symm]
  simp only [Bool.not_eq_eq_eq_not, Bool.not_true, beq_eq_false_iff_ne]
  exact fun h => hne h.symm

/-- C6 (amended): the persistence-layer guard: saving a booking record
whose amount field is modified (which covers every newly created record),
when the other stored bookings of its (user, exhibition) pair plus its own
amount exceed 6, is rejected with the cap error — independently of any
service-level check.  (A save that leaves the amount unchanged skips this
guard.) -/
theorem presave_guard_rejects_overcap (db : DB) (b : Booking)
    (hval : 1 ≤ b.amount)
    (hmod : amountModified db.bookings b = true)
    (hover : 6 < otherSum db.bookings b.user b.exhibition b.bookId + b.amount) :
    bookingSave db b = Except.error SaveError.capExceeded :=
  bookingSave_cap_fail (by omega) hmod hover

theorem presave_guard_rejects_overcap_witness :
    bookingSave ⟨[], [⟨1, 7, 1, BoothType.small, 4⟩]⟩ ⟨2, 7, 1, BoothType.small, 3⟩
      = Except.error SaveError.capExceeded :=
  presave_guard_rejects_overcap ⟨[], [⟨1, 7, 1, BoothType.small, 4⟩]⟩
    ⟨2, 7, 1, BoothType.small, 3⟩ (by decide) (by decide) (by decide)

/-- C6 counterexample: user 7 holds amounts 4 and 3 on exhibition 1 (cap
already violated, as after a bypass of the higher-level checks); saving the
amount-3 record with only its boothType changed is accepted by the
persistence layer, because the guard runs only when the amount field is
modified — the sum 4 + 3 = 7 > 6 notwithstanding. -/
theorem presave_guard_bypassed_counterexample :
    bookingSave ⟨[], [⟨1, 7, 1, BoothType.small, 4⟩, ⟨2, 7, 1, BoothType.small, 3⟩]⟩
        ⟨2, 7, 1, BoothType.big, 3⟩
      = Except.ok ⟨[], [⟨1, 7, 1, BoothType.small, 4⟩, ⟨2, 7, 1, BoothType.big, 3⟩]⟩ := rfl

/-- C5 (amended): updateBooking checks availability against the quota of
the requested type after conceptually restoring the old reservation.  On a
quota shortfall it returns 400 with no state change.  When the quota check
passes and the new amount keeps the pair within the cap (or leaves the
amount unchanged), it commits: status 200, the stored booking carries the
new type and amount, the stored exhibition the release-then-reserve
quotas.  But when the quota check passes and the new amount trips the cap,
the failure is NOT atomic: status 400 with the bookings unchanged while
the exhibition has already been saved with the release-then-reserve
quotas. -/
theorem updateBooking_semantics (db : DB) (p : Principal) (bid : Nat) (b0 : Booking)
    (rt : BoothType) (a : Nat) (ex : Exhibition)
    (hU : uniqueIds db.bookings)
    (hfind : db.bookings.find?
      (fun b => b.bookId == bid && (p.role == Role.admin || b.user == p.id)) = some b0)
    (hex : findExhibition db b0.exhibition = some ex)
    (ha : 1 ≤ a) :
    ((release ex b0.boothType b0.amount).quota rt < a →
        updateBooking db p bid (some rt) a = (400, db)) ∧
    (¬ (release ex b0.boothType b0.amount).quota rt < a →
      (otherSum db.bookings b0.user b0.exhibition b0.bookId + a ≤ 6 ∨ a = b0.amount →
        (updateBooking db p bid (some rt) a).1 = 200 ∧
        (updateBooking db p bid (some rt) a).2.bookings
          = db.bookings.map (fun x => if x.bookId == b0.bookId
              then ⟨b0.bookId, b0.user, b0.exhibition, rt, a⟩ else x) ∧
        findExhibition (updateBooking db p bid (some rt) a).2 b0.exhibition
          = some (reserve (release ex b0.boothType b0.amount) rt a)) ∧
      (a ≠ b0.amount → 6 < otherSum db.bookings b0.user b0.exhibition b0.bookId + a →
        (updateBooking db p bid (some rt) a).1 = 400 ∧
        (updateBooking db p bid (some rt) a).2.bookings = db.bookings ∧
        findExhibition (updateBooking db p bid (some rt) a).2 b0.exhibition
          = some (reserve (release ex b0.boothType b0.amount) rt a))) := by
  have hb0mem : b0 ∈ db.bookings := List.mem_of_find?_eq_some hfind
  have hite : (if (a == 0) = true then b0.amount else a) = a := by
    rw [show (a == 0) = false by simp; omega]
    simp
  have hexid : (reserve (release ex b0.boothType b0.amount) rt a).exId = ex.exId := by
    rw [reserve_exId, release_exId]
  refine ⟨?_, ?_⟩
  · intro hq
    unfold updateBooking
    rw [hfind]
    dsimp only
    rw [hex]
    dsimp only
    rw [hite, if_pos hq]
  · intro hq
    refine ⟨?_, ?_⟩
    · intro hcapok
      unfold updateBooking
      rw [hfind]
      dsimp only
      rw [hex]
      dsimp only
      rw [hite, if_neg hq]
      have hsave : bookingSave
          (setExhibition db (reserve (release ex b0.boothType b0.amount) rt a))
          (⟨b0.bookId, b0.user, b0.exhibition, rt, a⟩ : Booking)
        = Except.ok { setExhibition db (reserve (release ex b0.boothType b0.amount) rt a) with
            bookings := upsertBooking
              (setExhibition db (reserve (release ex b0.boothType b0.amount) rt a)).bookings
              (⟨b0.bookId, b0.user, b0.exhibition, rt, a⟩ : Booking) } :=
        bookingSave_commits (show ¬ a < 1 by omega)
          (fun hmod => hcapok.elim (fun h => h)
            (fun heq => absurd ((amountModified_self hU hb0mem
                (show (⟨b0.bookId, b0.user, b0.exhibition, rt, a⟩ : Booking).bookId = b0.bookId
                  from rfl) heq).symm.trans hmod)
              (by simp)))
      rw [hsave]
      dsimp only
      have hup : upsertBooking db.bookings (⟨b0.bookId, b0.user, b0.exhibition, rt, a⟩ : Booking)
          = db.bookings.map (fun x => if x.bookId == b0.bookId
              then (⟨b0.bookId, b0.user, b0.exhibition, rt, a⟩ : Booking) else x) :=
        upsertBooking_existing hb0mem rfl
      refine ⟨rfl, ?_, ?_⟩
      · show upsertBooking
            (setExhibition db (reserve (release ex b0.boothType b0.amount) rt a)).bookings
            (⟨b0.bookId, b0.user, b0.exhibition, rt, a⟩ : Booking) = _
        rw [setExhibition_bookings]
        exact hup
      · exact findExhibition_set hex hexid
    · intro hne hover
      unfold updateBooking
      rw [hfind]
      dsimp only
      rw [hex]
      dsimp only
      rw [hite, if_neg hq]
      have hfail : bookingSave
          (setExhibition db (reserve (release ex b0.boothType b0.amount) rt a))
          (⟨b0.bookId, b0.user, b0.exhibition, rt, a⟩ : Booking)
        = Except.error SaveError.capExceeded :=
        bookingSave_cap_fail (show ¬ a < 1 by omega)
          (amountModified_ne hU hb0mem
            (show (⟨b0.bookId, b0.user, b0.exhibition, rt, a⟩ : Booking).bookId = b0.bookId
              from rfl) hne) hover
      rw [hfail]
      dsimp only
      exact ⟨rfl, setExhibition_bookings _ _, findExhibition_set hex hexid⟩

/-- C5 counterexample: user 7 holds bookings {small, 4} and {small, 2} on
exhibition 1 whose small counter is 4.  Updating the amount-2 booking to
amount 3 passes the quota check (4 + 2 restored = 6 ≥ 3), saves the
exhibition with small counter 3, and only then hits the cap guard
(4 + 3 > 6): the operation fails with 400 yet the state has changed. -/
theorem updateBooking_not_atomic_counterexample :
    (updateBooking ⟨[⟨1, 100, 4, 5⟩], [⟨1, 7, 1, BoothType.small, 4⟩, ⟨2, 7, 1, BoothType.small, 2⟩]⟩
        ⟨7, Role.member⟩ 2 (some BoothType.small) 3).1 = 400 ∧
    (updateBooking ⟨[⟨1, 100, 4, 5⟩], [⟨1, 7, 1, BoothType.small, 4⟩, ⟨2, 7, 1, BoothType.small, 2⟩]⟩
        ⟨7, Role.member⟩ 2 (some BoothType.small) 3).2
      ≠ ⟨[⟨1, 100, 4, 5⟩], [⟨1, 7, 1, BoothType.small, 4⟩, ⟨2, 7, 1, BoothType.small, 2⟩]⟩ ∧
    (updateBooking ⟨[⟨1, 100, 4, 5⟩], [⟨1, 7, 1, BoothType.small, 4⟩, ⟨2, 7, 1, BoothType.small, 2⟩]⟩
        ⟨7, Role.member⟩ 2 (some BoothType.small) 3).2.exhibitions = [⟨1, 100, 3, 5⟩] := by
  decide

theorem updateBooking_semantics_witness :
    (updateBooking ⟨[⟨1, 100, 4, 5⟩], [⟨1, 7, 1, BoothType.small, 4⟩, ⟨2, 7, 1, BoothType.small, 2⟩]⟩
        ⟨7, Role.member⟩ 2 (some BoothType.big) 2).1 = 200 ∧
    findExhibition (updateBooking
        ⟨[⟨1, 100, 4, 5⟩], [⟨1, 7, 1, BoothType.small, 4⟩, ⟨2, 7, 1, BoothType.small, 2⟩]⟩
        ⟨7, Role.member⟩ 2 (some BoothType.big) 2).2 1
      = some ⟨1, 100, 6, 3⟩ :=
  have h := updateBooking_semantics
    ⟨[⟨1, 100, 4, 5⟩], [⟨1, 7, 1, BoothType.small, 4⟩, ⟨2, 7, 1, BoothType.small, 2⟩]⟩
    ⟨7, Role.member⟩ 2 ⟨2, 7, 1, BoothType.small, 2⟩ BoothType.big 2 ⟨1, 100, 4, 5⟩
    (by unfold uniqueIds; decide) (by decide) (by decide) (by decide)
  have h2 := (h.2 (by decide)).1 (Or.inl (by decide))
  ⟨h2.1, h2.2.2.trans (by decide)⟩

/-- C1: the quota-conservation equation fails on the code.  Exhibition 1
starts with smallBoothQuota 10; member 7 creates bookings {small, 4} and
{small, 2}, then updates the second to amount 3.  The update passes the
quota check, saves the exhibition (restored counter 6, minus 3 gives 3)
and only then hits the cap guard (4 + 3 > 6), answering 400 with the
booking unchanged: afterwards the stored small counter (3) plus the stored
small amounts (4 + 2 = 6) is 9, not the initial quota 10. -/
theorem quota_conservation_violated :
    (findExhibition (runOps 0 ⟨[⟨1, 100, 10, 5⟩], []⟩
        [Op.create ⟨7, Role.member⟩ 1 (some BoothType.small) 4,
         Op.create ⟨7, Role.member⟩ 1 (some BoothType.small) 2,
         Op.update ⟨7, Role.member⟩ 2 (some BoothType.small) 3]) 1).map
      (fun ex => ex.smallBoothQuota
        + typeExSum (runOps 0 ⟨[⟨1, 100, 10, 5⟩], []⟩
            [Op.create ⟨7, Role.member⟩ 1 (some BoothType.small) 4,
             Op.create ⟨7, Role.member⟩ 1 (some BoothType.small) 2,
             Op.update ⟨7, Role.member⟩ 2 (some BoothType.small) 3]).bookings 1
            BoothType.small)
      = some 9 := by
  decide

end BoothBooking
